import Mathlib

/-!
Shallow embedding of `pkg/services/pull_request/bitbucket_server.go`.

The Go file implements a filtered pull-request lister against a Bitbucket
Server REST API.  We embed the data model and the algorithmic core:

* compiled regular expressions are modelled as their whole-match language,
  a predicate `Pattern : String → Bool`; the Go method
  `regexp.Regexp.MatchString` (an unanchored search: "does the string
  contain a match?") is embedded as `matchString`, which searches every
  contiguous substring;
* every fallible collaborator call (`GetPullRequestsPage`,
  `GetCommitBuildStatuses`, `GetPullRequestCommitsWithOptions`, each
  together with its response-shape parse step) is modelled as a function
  returning `Except Err (Page _)`; a transport failure and a parse failure
  both return `.error`, matching the Go code where both paths
  `return nil, err`;
* the pagination loops of `List`, `getBuildStatuses` and
  `getPullRequestCommits` are embedded with an explicit fuel parameter
  (the server controls `isLastPage`, so the Go loops need not terminate);
  the first component `none` means the loop ran out of fuel;
* every operation also returns the list of requests it issued, in order,
  so that claims about which pages are fetched can be stated.  A request
  records exactly the data the Go code passes to the client call: note
  that `GetCommitBuildStatuses(commitId)` is called with the commit id
  only — the `paged` map built (and updated) in `getBuildStatuses` is
  never passed to it, which the `Request.buildStatuses` constructor
  reflects.
-/

namespace BitbucketServer

abbrev Err := String

/-- The Go constant `SUCCESSFUL = "SUCCESSFUL"` (bitbucket_server.go line 24). -/
def SUCCESSFUL : String := "SUCCESSFUL"

/-- The fields of `bitbucketv1.BuildStatus` used by the service. -/
structure BuildStatus where
  state : String
  name : String
deriving DecidableEq, Repr

/-- The fields of `bitbucketv1.PullRequestRef` used by the service
(`FromRef.ID` is a ref name such as `refs/heads/main`, `FromRef.DisplayID`
the short branch name, `FromRef.LatestCommit` the head commit SHA). -/
structure FromRef where
  id : String
  displayId : String
  latestCommit : String
deriving DecidableEq, Repr

/-- The fields of `bitbucketv1.PullRequest` used by the service. -/
structure PullRequestInfo where
  id : Int
  fromRef : FromRef
deriving DecidableEq, Repr

/-- The field of `bitbucketv1.Commit` used by the service. -/
structure Commit where
  id : String
deriving DecidableEq, Repr

/-- The result entity `PullRequest` of the `pull_request` package. -/
structure PullRequest where
  number : Int
  branch : String
  headSHA : String
deriving DecidableEq, Repr

/-- The `paged` map built by the Go loops: key `"limit"` always present,
key `"start"` present once set from a previous page. -/
structure PagedParams where
  limit : Int
  start : Option Int
deriving DecidableEq, Repr

/-- One page of a paginated response, after JSON parsing: the `values`
array plus the fields read by `bitbucketv1.HasNextPage`. -/
structure Page (α : Type) where
  values : List α
  isLastPage : Bool
  nextPageStart : Int

/-- A request issued to the REST client, recording exactly the data the
Go code passes to the corresponding client call.  `buildStatuses` carries
no paging parameters because `GetCommitBuildStatuses(commitId)` takes
none (the `paged` map in `getBuildStatuses` is built but never passed). -/
inductive Request where
  | prPage (params : PagedParams)
  | buildStatuses (commitId : String)
  | prCommitsPage (pullRequestId : Int) (params : PagedParams)
deriving DecidableEq, Repr, BEq

/-- The REST collaborator: each operation returns the parsed page or an
error (covering both the transport failure and the response-shape parse
failure of the Go code, both of which `return nil, err`). -/
structure Server where
  getPullRequestsPage : PagedParams → Except Err (Page PullRequestInfo)
  getCommitBuildStatuses : String → Except Err (Page BuildStatus)
  getPullRequestCommitsWithOptions : Int → PagedParams → Except Err (Page Commit)

/-- A compiled regular expression, modelled by its whole-match language:
`p s = true` means the regex matches the string `s` exactly. -/
abbrev Pattern := String → Bool

/-- Embedding of `regexp.Regexp.MatchString`: an unanchored search, true iff some
contiguous substring of `s` is matched by the pattern. -/
def matchString (p : Pattern) (s : String) : Bool :=
  (s.data.tails.flatMap List.inits).any fun cs => p (String.mk cs)

/-- The `BitbucketService` struct.  The `client`, `projectKey` and
`repositorySlug` fields are represented by the abstract `Server`
collaborator plus the two identifier strings. -/
structure BitbucketService where
  server : Server
  projectKey : String
  repositorySlug : String
  branchMatch : Option Pattern
  successfulBuilds : Option (List Pattern)
  findLatestSuccessful : Bool

/-- Result of a fuel-bounded, trace-instrumented operation: first
component `none` means the fuel ran out (the Go loop would still be
running), `some (.error e)` an aborted call, `some (.ok a)` success;
the second component is the list of requests issued, in order. -/
abbrev Fetch (α : Type) : Type := Option (Except Err α) × List Request

/-- Embedding of `verifyAllBuildsSuccessful`: true iff every build status is
SUCCESSFUL (early return on the first non-successful one). -/
def verifyAllBuildsSuccessful : List BuildStatus → Bool
  | [] => true
  | buildStatus :: rest =>
    if buildStatus.state ≠ SUCCESSFUL then false
    else verifyAllBuildsSuccessful rest

/-- Embedding of `isMatchingBuildSuccessful`: true iff some build status has a name
matched by the pattern and state SUCCESSFUL. -/
def isMatchingBuildSuccessful (buildName : Pattern) : List BuildStatus → Bool
  | [] => false
  | buildStatus :: rest =>
    if matchString buildName buildStatus.name && buildStatus.state == SUCCESSFUL then true
    else isMatchingBuildSuccessful buildName rest

/-- Embedding of `verifyListedBuildsSuccessful`: true iff every listed pattern has a
matching successful build (early return on the first failing pattern). -/
def verifyListedBuildsSuccessful (successfulBuilds : List Pattern)
    (buildStatuses : List BuildStatus) : Bool :=
  match successfulBuilds with
  | [] => true
  | buildName :: rest =>
    if ! isMatchingBuildSuccessful buildName buildStatuses then false
    else verifyListedBuildsSuccessful rest buildStatuses

/-- The `for` loop of `getBuildStatuses` (lines 198–215).  The request
sent is `GetCommitBuildStatuses(commitId)`: the `paged` map is threaded
and updated exactly as in the Go code, but — as in the Go code — it is
not part of the request. -/
def getBuildStatusesLoop (srv : Server) (commitId : String) (paged : PagedParams)
    (res : List BuildStatus) : Nat → Fetch (List BuildStatus)
  | 0 => (none, [])
  | fuel + 1 =>
    match srv.getCommitBuildStatuses commitId with
    | .error e =>
      (some (.error ("error listing build statuses for " ++ commitId ++ ": " ++ e)),
       [.buildStatuses commitId])
    | .ok page =>
      let res := res ++ page.values
      if page.isLastPage then
        (some (.ok res), [.buildStatuses commitId])
      else
        let next := getBuildStatusesLoop srv commitId
          { paged with start := some page.nextPageStart } res fuel
        (next.1, .buildStatuses commitId :: next.2)

/-- Embedding of `getBuildStatuses`: initial `paged` map `{"limit": 100}`. -/
def getBuildStatuses (b : BitbucketService) (fuel : Nat) (commitId : String) :
    Fetch (List BuildStatus) :=
  getBuildStatusesLoop b.server commitId { limit := 100, start := none } [] fuel

/-- Embedding of `isCommitGreen`: fetch all build statuses, then dispatch on
`len(b.successfulBuilds) != 0` between the listed-builds policy and the
all-builds policy (a `nil` slice has length 0). -/
def isCommitGreen (b : BitbucketService) (fuel : Nat) (commitId : String) : Fetch Bool :=
  match getBuildStatuses b fuel commitId with
  | (none, tr) => (none, tr)
  | (some (.error e), tr) => (some (.error e), tr)
  | (some (.ok buildStatuses), tr) =>
    let allGreen :=
      if (b.successfulBuilds.getD []).length ≠ 0 then
        verifyListedBuildsSuccessful (b.successfulBuilds.getD []) buildStatuses
      else
        verifyAllBuildsSuccessful buildStatuses
    (some (.ok allGreen), tr)

/-- The `for` loop of `getPullRequestCommits` (lines 239–256): here the
`paged` map is passed with the request and its `start` is updated from
each page's `nextPageStart`. -/
def getPullRequestCommitsLoop (srv : Server) (pullRequestId : Int) (paged : PagedParams)
    (res : List Commit) : Nat → Fetch (List Commit)
  | 0 => (none, [])
  | fuel + 1 =>
    match srv.getPullRequestCommitsWithOptions pullRequestId paged with
    | .error e =>
      (some (.error ("error listing pull request commits for PR: " ++ toString pullRequestId ++ ": " ++ e)),
       [.prCommitsPage pullRequestId paged])
    | .ok page =>
      let res := res ++ page.values
      if page.isLastPage then
        (some (.ok res), [.prCommitsPage pullRequestId paged])
      else
        let next := getPullRequestCommitsLoop srv pullRequestId
          { paged with start := some page.nextPageStart } res fuel
        (next.1, .prCommitsPage pullRequestId paged :: next.2)

/-- Embedding of `getPullRequestCommits`: initial `paged` map `{"limit": 100}`. -/
def getPullRequestCommits (b : BitbucketService) (fuel : Nat) (pullRequestId : Int) :
    Fetch (List Commit) :=
  getPullRequestCommitsLoop b.server pullRequestId { limit := 100, start := none } [] fuel

/-- The branch filter of `List` (line 100):
`b.branchMatch != nil && !b.branchMatch.MatchString(pull.FromRef.DisplayID)`. -/
def branchRejected (b : BitbucketService) (pull : PullRequestInfo) : Bool :=
  match b.branchMatch with
  | none => false
  | some p => ! matchString p pull.fromRef.displayId

/-- The inner commit walk of `List` (lines 121–135): skip commits whose
id equals `pull.FromRef.ID` (the ref name), check the others in order
with `isCommitGreen`, stop at the first green one. -/
def findGreenCommit (b : BitbucketService) (fuel : Nat) (refId : String) :
    List Commit → Fetch (Option String)
  | [] => (some (.ok none), [])
  | commit :: rest =>
    if commit.id = refId then
      findGreenCommit b fuel refId rest
    else
      match isCommitGreen b fuel commit.id with
      | (none, tr) => (none, tr)
      | (some (.error e), tr) => (some (.error e), tr)
      | (some (.ok true), tr) => (some (.ok (some commit.id)), tr)
      | (some (.ok false), tr) =>
        let next := findGreenCommit b fuel refId rest
        (next.1, tr ++ next.2)

/-- The per-pull-request body of the `List` loop (lines 99–148):
returns `none` for a skipped PR and `some pr` for an accepted one. -/
def processPull (b : BitbucketService) (fuel : Nat) (pull : PullRequestInfo) :
    Fetch (Option PullRequest) :=
  if branchRejected b pull then (some (.ok none), [])
  else
    let headSHA := pull.fromRef.latestCommit
    match b.successfulBuilds with
    | none =>
      (some (.ok (some { number := pull.id, branch := pull.fromRef.displayId,
                         headSHA := headSHA })), [])
    | some _ =>
      match isCommitGreen b fuel headSHA with
      | (none, tr) => (none, tr)
      | (some (.error e), tr) => (some (.error e), tr)
      | (some (.ok true), tr) =>
        (some (.ok (some { number := pull.id, branch := pull.fromRef.displayId,
                           headSHA := headSHA })), tr)
      | (some (.ok false), tr) =>
        if ! b.findLatestSuccessful then
          (some (.ok none), tr)
        else
          match getPullRequestCommits b fuel pull.id with
          | (none, tr2) => (none, tr ++ tr2)
          | (some (.error e), tr2) => (some (.error e), tr ++ tr2)
          | (some (.ok commits), tr2) =>
            match findGreenCommit b fuel pull.fromRef.id commits with
            | (none, tr3) => (none, tr ++ tr2 ++ tr3)
            | (some (.error e), tr3) => (some (.error e), tr ++ tr2 ++ tr3)
            | (some (.ok (some sha)), tr3) =>
              (some (.ok (some { number := pull.id, branch := pull.fromRef.displayId,
                                 headSHA := sha })), tr ++ tr2 ++ tr3)
            | (some (.ok none), tr3) => (some (.ok none), tr ++ tr2 ++ tr3)

/-- The `for _, pull := range pulls` loop of `List`: process the pulls of
one page in order, appending each accepted PR. -/
def processPulls (b : BitbucketService) (fuel : Nat) :
    List PullRequestInfo → Fetch (List PullRequest)
  | [] => (some (.ok []), [])
  | pull :: rest =>
    match processPull b fuel pull with
    | (none, tr) => (none, tr)
    | (some (.error e), tr) => (some (.error e), tr)
    | (some (.ok contribution), tr) =>
      match processPulls b fuel rest with
      | (none, tr2) => (none, tr ++ tr2)
      | (some (.error e), tr2) => (some (.error e), tr ++ tr2)
      | (some (.ok prs), tr2) => (some (.ok (contribution.toList ++ prs)), tr ++ tr2)

/-- The outer page loop of `List` (lines 89–156). -/
def listLoop (b : BitbucketService) (paged : PagedParams)
    (pullRequests : List PullRequest) : Nat → Fetch (List PullRequest)
  | 0 => (none, [])
  | fuel + 1 =>
    match b.server.getPullRequestsPage paged with
    | .error e =>
      (some (.error ("error listing pull requests for " ++ b.projectKey ++ "/" ++
        b.repositorySlug ++ ": " ++ e)), [.prPage paged])
    | .ok page =>
      match processPulls b fuel page.values with
      | (none, tr) => (none, .prPage paged :: tr)
      | (some (.error e), tr) => (some (.error e), .prPage paged :: tr)
      | (some (.ok newPRs), tr) =>
        let acc := pullRequests ++ newPRs
        if page.isLastPage then
          (some (.ok acc), .prPage paged :: tr)
        else
          let next := listLoop b { paged with start := some page.nextPageStart } acc fuel
          (next.1, .prPage paged :: (tr ++ next.2))

/-- Embedding of `List`: initial `paged` map `{"limit": 100}`, initial result `[]`
(a present, empty slice). -/
def listPullRequests (b : BitbucketService) (fuel : Nat) : Fetch (List PullRequest) :=
  listLoop b { limit := 100, start := none } [] fuel

/-- The loop of `newBitbucketService` compiling the build-name patterns
(lines 62–71): first compilation failure aborts with its error.
`compile` abstracts `regexp.Compile`, returning the compiled pattern's
whole-match language or `none` for a syntactically invalid regex. -/
def compileAll (compile : String → Option Pattern) : List String → Except Err (List Pattern)
  | [] => .ok []
  | buildName :: rest =>
    match compile buildName with
    | none => .error ("error compiling build name regexp " ++ buildName)
    | some p =>
      match compileAll compile rest with
      | .error e => .error e
      | .ok ps => .ok (p :: ps)

/-- Embedding of `newBitbucketService` (lines 45–81): compile the optional branch
pattern, then the optional list of build-name patterns (nil stays nil,
an empty list stays empty), and only then return the service value.
No collaborator operation is invoked. -/
def newBitbucketService (compile : String → Option Pattern) (srv : Server)
    (projectKey repositorySlug : String) (branchMatch : Option String)
    (successfulBuilds : Option (List String)) (findLatestSuccessful : Bool) :
    Except Err BitbucketService :=
  match branchMatch with
  | some s =>
    match compile s with
    | none => .error ("error compiling BranchMatch regexp " ++ s)
    | some branchMatchRegexp =>
      match successfulBuilds with
      | none =>
        .ok { server := srv, projectKey := projectKey, repositorySlug := repositorySlug,
              branchMatch := some branchMatchRegexp, successfulBuilds := none,
              findLatestSuccessful := findLatestSuccessful }
      | some l =>
        match compileAll compile l with
        | .error e => .error e
        | .ok ps =>
          .ok { server := srv, projectKey := projectKey, repositorySlug := repositorySlug,
                branchMatch := some branchMatchRegexp, successfulBuilds := some ps,
                findLatestSuccessful := findLatestSuccessful }
  | none =>
    match successfulBuilds with
    | none =>
      .ok { server := srv, projectKey := projectKey, repositorySlug := repositorySlug,
            branchMatch := none, successfulBuilds := none,
            findLatestSuccessful := findLatestSuccessful }
    | some l =>
      match compileAll compile l with
      | .error e => .error e
      | .ok ps =>
        .ok { server := srv, projectKey := projectKey, repositorySlug := repositorySlug,
              branchMatch := none, successfulBuilds := some ps,
              findLatestSuccessful := findLatestSuccessful }

/-- Derived combination of the two policy functions: the decision
`isCommitGreen` takes once the build statuses of a commit are in hand
(dispatch on `len(b.successfulBuilds) != 0`). -/
def greenDecision (b : BitbucketService) (buildStatuses : List BuildStatus) : Bool :=
  if (b.successfulBuilds.getD []).length ≠ 0 then
    verifyListedBuildsSuccessful (b.successfulBuilds.getD []) buildStatuses
  else
    verifyAllBuildsSuccessful buildStatuses

/-- Hypothesis shape for several theorems: every build-status listing
fits in one page, with contents given by `sts`. -/
def singlePageBuilds (srv : Server) (sts : String → List BuildStatus) : Prop :=
  ∀ c, srv.getCommitBuildStatuses c =
    .ok { values := sts c, isLastPage := true, nextPageStart := 0 }

/-- Reference (spec-side) description of the commit walk, part 1: the
commits the walk visits, i.e. those whose id differs from the branch ref
id `pull.FromRef.ID`. -/
def walkVisited (refId : String) : List Commit → List Commit
  | [] => []
  | c :: rest =>
    if c.id = refId then walkVisited refId rest else c :: walkVisited refId rest

/-- Reference (spec-side) description of the commit walk, part 2: the
first visited commit that is green, if any. -/
def walkFound (green : Commit → Bool) (refId : String) (commits : List Commit) :
    Option Commit :=
  ((walkVisited refId commits).dropWhile fun c => ! green c).head?

/-- Reference (spec-side) description of the commit walk, part 3: the
visited commits that get a greenness evaluation — every visited commit
up to and including the first green one, in server order, each once. -/
def walkChecked (green : Commit → Bool) (refId : String) (commits : List Commit) :
    List Commit :=
  ((walkVisited refId commits).takeWhile fun c => ! green c) ++
    ((walkVisited refId commits).dropWhile fun c => ! green c).take 1

/-- The entry a single pull request contributes to the result of `List`
(`none` when it is skipped or when processing it does not succeed). -/
def contribOf (b : BitbucketService) (fuel : Nat) (pull : PullRequestInfo) :
    Option PullRequest :=
  match (processPull b fuel pull).1 with
  | some (.ok c) => c
  | _ => none

/-! Concrete servers and services used by counterexamples and witnesses. -/

/-- A server whose build-status listing does not fit in one page: the
first page reports `isLastPage = false`, `nextPageStart = 25`.  Since a
build-status request carries no cursor, a deterministic server answers
every iteration with this same first page. -/
def twoPageBuildServer : Server where
  getPullRequestsPage := fun _ => .error "unused"
  getCommitBuildStatuses := fun _ =>
    .ok { values := [{ state := "SUCCESSFUL", name := "b1" }],
          isLastPage := false, nextPageStart := 25 }
  getPullRequestCommitsWithOptions := fun _ _ => .error "unused"

/-- Service over `twoPageBuildServer` with the check-all-green policy. -/
def twoPageBuildService : BitbucketService where
  server := twoPageBuildServer
  projectKey := "P"
  repositorySlug := "R"
  branchMatch := none
  successfulBuilds := some []
  findLatestSuccessful := false

/-- Build statuses for the C2 counterexample: commit "good" has a
successful "e2e" build, every other commit a failed one. -/
def cx2Sts : String → List BuildStatus := fun c =>
  if c = "good" then [{ state := "SUCCESSFUL", name := "e2e" }]
  else [{ state := "FAILED", name := "e2e" }]

/-- Server for the C2 counterexample: one PR whose branch ref is
`refs/heads/f` with tip commit "tip"; the PR commit list contains the
tip commit "tip" itself followed by "good". -/
def cx2Server : Server where
  getPullRequestsPage := fun _ =>
    .ok { values := [⟨101, ⟨"refs/heads/f", "f", "tip"⟩⟩],
          isLastPage := true, nextPageStart := 0 }
  getCommitBuildStatuses := fun c =>
    .ok { values := cx2Sts c, isLastPage := true, nextPageStart := 0 }
  getPullRequestCommitsWithOptions := fun _ _ =>
    .ok { values := [⟨"tip"⟩, ⟨"good"⟩],
          isLastPage := true, nextPageStart := 0 }

/-- A build-name pattern whose language is exactly the string "e2e". -/
def cx2Pattern : Pattern := fun s => s == "e2e"

/-- Service for the C2 counterexample: listed-builds policy with
`cx2Pattern`, `findLatestSuccessful = true`. -/
def cx2Service : BitbucketService where
  server := cx2Server
  projectKey := "P"
  repositorySlug := "R"
  branchMatch := none
  successfulBuilds := some [cx2Pattern]
  findLatestSuccessful := true

/-- Branch pattern for the C6 counterexample: language is exactly the
string "feature". -/
def cx6Pattern : Pattern := fun s => s == "feature"

/-- Server for the C6 counterexample: one PR on branch "feature" whose
head commit has a failed build. -/
def cx6Server : Server where
  getPullRequestsPage := fun _ =>
    .ok { values := [⟨101, ⟨"refs/heads/feature", "feature", "sha1"⟩⟩],
          isLastPage := true, nextPageStart := 0 }
  getCommitBuildStatuses := fun _ =>
    .ok { values := [{ state := "FAILED", name := "e2e" }],
          isLastPage := true, nextPageStart := 0 }
  getPullRequestCommitsWithOptions := fun _ _ => .error "unused"

/-- Service for the C6 counterexample: branch filter `cx6Pattern`
(matched by the PR) plus the check-all-green policy. -/
def cx6Service : BitbucketService where
  server := cx6Server
  projectKey := "P"
  repositorySlug := "R"
  branchMatch := some cx6Pattern
  successfulBuilds := some []
  findLatestSuccessful := false

/-- A server answering every build-status request with one fixed page of
a single successful build named "b1"; other endpoints unused. -/
def w3Server : Server where
  getPullRequestsPage := fun _ => .error "unused"
  getCommitBuildStatuses := fun _ =>
    .ok { values := [{ state := "SUCCESSFUL", name := "b1" }],
          isLastPage := true, nextPageStart := 0 }
  getPullRequestCommitsWithOptions := fun _ _ => .error "unused"

/-- Service with the "no check" sentinel (`successfulBuilds = nil`). -/
def w3NilService : BitbucketService where
  server := w3Server
  projectKey := "P"
  repositorySlug := "R"
  branchMatch := none
  successfulBuilds := none
  findLatestSuccessful := false

/-- Service with a non-empty pattern list (named-builds policy). -/
def w3NamedService : BitbucketService where
  server := w3Server
  projectKey := "P"
  repositorySlug := "R"
  branchMatch := none
  successfulBuilds := some [fun s => s == "b1"]
  findLatestSuccessful := false

/-- Service with an empty pattern list (check-all-green policy). -/
def w3AllService : BitbucketService where
  server := w3Server
  projectKey := "P"
  repositorySlug := "R"
  branchMatch := none
  successfulBuilds := some []
  findLatestSuccessful := false

/-- Build statuses for the C2 witness: commit "good" has a successful
"e2e" build, every other commit a failed one. -/
def w2Sts : String → List BuildStatus := fun c =>
  if c = "good" then [{ state := "SUCCESSFUL", name := "e2e" }]
  else [{ state := "FAILED", name := "e2e" }]

/-- Server for the C2 witness: one PR with tip "tip", commit list
["bad", "good"], single-page build statuses given by `w2Sts`. -/
def w2Server : Server where
  getPullRequestsPage := fun _ =>
    .ok { values := [⟨101, ⟨"refs/heads/f", "f", "tip"⟩⟩],
          isLastPage := true, nextPageStart := 0 }
  getCommitBuildStatuses := fun c =>
    .ok { values := w2Sts c, isLastPage := true, nextPageStart := 0 }
  getPullRequestCommitsWithOptions := fun _ _ =>
    .ok { values := [⟨"bad"⟩, ⟨"good"⟩], isLastPage := true, nextPageStart := 0 }

/-- Service for the C2 witness: listed-builds policy requiring a green
"e2e" build, `findLatestSuccessful = true`. -/
def w2Service : BitbucketService where
  server := w2Server
  projectKey := "P"
  repositorySlug := "R"
  branchMatch := none
  successfulBuilds := some [fun s => s == "e2e"]
  findLatestSuccessful := true

/-- A server every endpoint of which fails; used where no call may
happen or where the first call must abort the listing. -/
def w6Server : Server where
  getPullRequestsPage := fun _ => .error "unused"
  getCommitBuildStatuses := fun _ => .error "unused"
  getPullRequestCommitsWithOptions := fun _ _ => .error "unused"

/-- Branch pattern for the C6 witness: language is exactly the string
"feature-1" (so e.g. "feature-10" matches by substring search). -/
def w6Pattern : Pattern := fun s => s == "feature-1"

/-- Service for the C6 witness: branch filter `w6Pattern`, no
build-verification policy. -/
def w6Service : BitbucketService where
  server := w6Server
  projectKey := "P"
  repositorySlug := "R"
  branchMatch := some w6Pattern
  successfulBuilds := none
  findLatestSuccessful := false

/-- Server for the C7 witness whose every endpoint fails. -/
def w7ErrServer : Server where
  getPullRequestsPage := fun _ => .error "boom"
  getCommitBuildStatuses := fun _ => .error "bang"
  getPullRequestCommitsWithOptions := fun _ _ => .error "unused"

/-- Service over `w7ErrServer` with the check-all-green policy. -/
def w7ErrService : BitbucketService where
  server := w7ErrServer
  projectKey := "P"
  repositorySlug := "R"
  branchMatch := none
  successfulBuilds := some []
  findLatestSuccessful := false

/-- Server for the C7 witness: the pull-request page succeeds but every
build-status fetch fails. -/
def w7MixServer : Server where
  getPullRequestsPage := fun _ =>
    .ok { values := [⟨5, ⟨"refs/heads/x", "x", "tip"⟩⟩],
          isLastPage := true, nextPageStart := 0 }
  getCommitBuildStatuses := fun _ => .error "bang"
  getPullRequestCommitsWithOptions := fun _ _ => .error "unused"

/-- Service over `w7MixServer` with the check-all-green policy. -/
def w7MixService : BitbucketService where
  server := w7MixServer
  projectKey := "P"
  repositorySlug := "R"
  branchMatch := none
  successfulBuilds := some []
  findLatestSuccessful := false

/-- Service over `w7MixServer` whose branch pattern matches nothing, so
every delivered PR is skipped without any further fetch. -/
def w7SkipService : BitbucketService where
  server := w7MixServer
  projectKey := "P"
  repositorySlug := "R"
  branchMatch := some fun _ => false
  successfulBuilds := some []
  findLatestSuccessful := false

/-- Server for the C8 witness: one page with two pull requests. -/
def w8Server : Server where
  getPullRequestsPage := fun _ =>
    .ok { values := [⟨1, ⟨"refs/heads/b1", "b1", "s1"⟩⟩, ⟨2, ⟨"refs/heads/b2", "b2", "s2"⟩⟩],
          isLastPage := true, nextPageStart := 0 }
  getCommitBuildStatuses := fun _ => .error "unused"
  getPullRequestCommitsWithOptions := fun _ _ => .error "unused"

/-- Service over `w8Server` with no branch filter and no build policy. -/
def w8Service : BitbucketService where
  server := w8Server
  projectKey := "P"
  repositorySlug := "R"
  branchMatch := none
  successfulBuilds := none
  findLatestSuccessful := false

/-- Model regex compiler for the C9 witness: the single string "[" is
the invalid regex, every other string compiles to its equality
language. -/
def w9Compile : String → Option Pattern := fun s =>
  if s = "[" then none else some fun t => t == s

/-- Server for the C9 witness; never contacted during construction. -/
def w9Server : Server where
  getPullRequestsPage := fun _ => .error "unused"
  getCommitBuildStatuses := fun _ => .error "unused"
  getPullRequestCommitsWithOptions := fun _ _ => .error "unused"

/-! Characterization lemmas for the pure policy functions. -/

theorem verifyAllBuildsSuccessful_eq_all (sts : List BuildStatus) :
    verifyAllBuildsSuccessful sts = sts.all fun s => s.state == SUCCESSFUL := by
  induction sts with
  | nil => rfl
  | cons s rest ih =>
    by_cases h : s.state = SUCCESSFUL <;>
      simp [verifyAllBuildsSuccessful, h, ih]

theorem isMatchingBuildSuccessful_eq_any (p : Pattern) (sts : List BuildStatus) :
    isMatchingBuildSuccessful p sts =
      sts.any fun s => matchString p s.name && s.state == SUCCESSFUL := by
  induction sts with
  | nil => rfl
  | cons s rest ih =>
    cases hc : matchString p s.name && s.state == SUCCESSFUL <;>
      simp [isMatchingBuildSuccessful, hc, ih]

theorem verifyListedBuildsSuccessful_eq_all (pats : List Pattern) (sts : List BuildStatus) :
    verifyListedBuildsSuccessful pats sts =
      pats.all fun p => isMatchingBuildSuccessful p sts := by
  induction pats with
  | nil => rfl
  | cons p rest ih =>
    cases hc : isMatchingBuildSuccessful p sts <;>
      simp [verifyListedBuildsSuccessful, hc, ih]

theorem isMatchingBuildSuccessful_eq_true_iff (p : Pattern) (sts : List BuildStatus) :
    isMatchingBuildSuccessful p sts = true ↔
      ∃ s ∈ sts, matchString p s.name = true ∧ s.state = SUCCESSFUL := by
  rw [isMatchingBuildSuccessful_eq_any]
  simp [List.any_eq_true]

theorem verifyListedBuildsSuccessful_eq_true_iff (pats : List Pattern)
    (sts : List BuildStatus) :
    verifyListedBuildsSuccessful pats sts = true ↔
      ∀ p ∈ pats, ∃ s ∈ sts, matchString p s.name = true ∧ s.state = SUCCESSFUL := by
  rw [verifyListedBuildsSuccessful_eq_all]
  simp only [List.all_eq_true]
  constructor
  · intro h p hp
    exact (isMatchingBuildSuccessful_eq_true_iff p sts).mp (h p hp)
  · intro h p hp
    exact (isMatchingBuildSuccessful_eq_true_iff p sts).mpr (h p hp)

/-! Lemmas about the paginated fetches. -/

theorem getBuildStatusesLoop_lastPage (srv : Server) (commitId : String)
    (paged : PagedParams) (res : List BuildStatus) (fuel : Nat)
    (page : Page BuildStatus) (h : srv.getCommitBuildStatuses commitId = .ok page)
    (hl : page.isLastPage = true) :
    getBuildStatusesLoop srv commitId paged res (fuel + 1) =
      (some (.ok (res ++ page.values)), [.buildStatuses commitId]) := by
  simp [getBuildStatusesLoop, h, hl]

theorem getBuildStatuses_singlePage (b : BitbucketService)
    (sts : String → List BuildStatus) (h : singlePageBuilds b.server sts)
    (fuel : Nat) (c : String) :
    getBuildStatuses b (fuel + 1) c = (some (.ok (sts c)), [.buildStatuses c]) := by
  have := getBuildStatusesLoop_lastPage b.server c { limit := 100, start := none } []
    fuel _ (h c) rfl
  simpa [getBuildStatuses] using this

theorem isCommitGreen_singlePage (b : BitbucketService)
    (sts : String → List BuildStatus) (h : singlePageBuilds b.server sts)
    (fuel : Nat) (c : String) :
    isCommitGreen b (fuel + 1) c =
      (some (.ok (greenDecision b (sts c))), [.buildStatuses c]) := by
  simp [isCommitGreen, getBuildStatuses_singlePage b sts h fuel c, greenDecision]

/-! Claim theorems. -/

/-- C1 (code bug, at the failing input): when a commit's build statuses
do not fit in one page, `getBuildStatuses` diverges, re-issuing the very
same request — `GetCommitBuildStatuses(commitId)` with neither the page
size nor the server-returned cursor, since the `paged` map it builds and
updates is never passed — once per iteration, for every fuel bound; no
page is requested exactly once and the cursor is never echoed. -/
theorem getBuildStatuses_neverPaginates (fuel : Nat) :
    getBuildStatuses twoPageBuildService fuel "c0" =
      (none, List.replicate fuel (Request.buildStatuses "c0")) := by
  have key : ∀ (n : Nat) (paged : PagedParams) (res : List BuildStatus),
      getBuildStatusesLoop twoPageBuildServer "c0" paged res n =
        (none, List.replicate n (Request.buildStatuses "c0")) := by
    intro n
    induction n with
    | zero => intro paged res; rfl
    | succ m ih =>
      intro paged res
      have hs : twoPageBuildServer.getCommitBuildStatuses "c0" =
          .ok { values := [{ state := "SUCCESSFUL", name := "b1" }],
                isLastPage := false, nextPageStart := 25 } := rfl
      simp [getBuildStatusesLoop, hs, ih, List.replicate_succ]
  simpa [getBuildStatuses, twoPageBuildService] using
    key fuel { limit := 100, start := none } []

/-- C3: the build-verification configuration is a tri-state.  With
`successfulBuilds = nil` a branch-accepted PR is accepted with its head
commit unchanged and no request at all is issued for it; with a non-nil
configuration the head commit is evaluated, by
`verifyListedBuildsSuccessful` when the pattern list is non-empty and by
`verifyAllBuildsSuccessful` when it is empty. -/
theorem buildPolicy_triState :
    (∀ (b : BitbucketService) (fuel : Nat) (pull : PullRequestInfo),
      b.successfulBuilds = none → branchRejected b pull = false →
      processPull b fuel pull =
        (some (.ok (some { number := pull.id, branch := pull.fromRef.displayId,
                           headSHA := pull.fromRef.latestCommit })), [])) ∧
    (∀ (b : BitbucketService) (fuel : Nat) (c : String) (pats : List Pattern)
      (statuses : List BuildStatus) (tr : List Request),
      b.successfulBuilds = some pats → pats ≠ [] →
      getBuildStatuses b fuel c = (some (.ok statuses), tr) →
      isCommitGreen b fuel c =
        (some (.ok (verifyListedBuildsSuccessful pats statuses)), tr)) ∧
    (∀ (b : BitbucketService) (fuel : Nat) (c : String)
      (statuses : List BuildStatus) (tr : List Request),
      b.successfulBuilds = some [] →
      getBuildStatuses b fuel c = (some (.ok statuses), tr) →
      isCommitGreen b fuel c =
        (some (.ok (verifyAllBuildsSuccessful statuses)), tr)) := by
  refine ⟨?_, ?_, ?_⟩
  · intro b fuel pull hnil hbr
    simp [processPull, hbr, hnil]
  · intro b fuel c pats statuses tr hsb hne hget
    have hlen : pats.length ≠ 0 := fun h => hne (List.length_eq_zero.mp h)
    simp [isCommitGreen, hget, hsb, hlen]
  · intro b fuel c statuses tr hsb hget
    simp [isCommitGreen, hget, hsb]

/-- Witness for C3: with the "no check" sentinel the PR is accepted
as-is with an empty request trace; with one pattern the named-builds
policy decides; with an empty pattern list the all-builds policy does. -/
theorem buildPolicy_triState_witness :
    processPull w3NilService 1 ⟨7, ⟨"refs/heads/x", "x", "sha"⟩⟩ =
      (some (.ok (some { number := 7, branch := "x", headSHA := "sha" })), []) ∧
    isCommitGreen w3NamedService 1 "c" =
      (some (.ok (verifyListedBuildsSuccessful [fun s => s == "b1"]
        [{ state := "SUCCESSFUL", name := "b1" }])), [.buildStatuses "c"]) ∧
    isCommitGreen w3AllService 1 "c" =
      (some (.ok (verifyAllBuildsSuccessful
        [{ state := "SUCCESSFUL", name := "b1" }])), [.buildStatuses "c"]) := by
  refine ⟨buildPolicy_triState.1 w3NilService 1 _ rfl rfl, ?_, ?_⟩
  · exact buildPolicy_triState.2.1 w3NamedService 1 "c" [fun s => s == "b1"]
      [{ state := "SUCCESSFUL", name := "b1" }] [.buildStatuses "c"] rfl
      (by simp) rfl
  · exact buildPolicy_triState.2.2 w3AllService 1 "c"
      [{ state := "SUCCESSFUL", name := "b1" }] [.buildStatuses "c"] rfl rfl

/-- C6 counterexample: with branch pattern `cx6Pattern` (matched by the
single delivered PR's branch "feature") and the check-all-green policy
configured, a successful `List` returns the empty result — the matching
PR is dropped for its failed build — refuting "the pull requests
appearing in the result of List() are exactly those whose branch short
display name matches the pattern". -/
theorem branchFilter_exactness_counterexample :
    matchString cx6Pattern "feature" = true ∧
    (listPullRequests cx6Service 2).1 = some (.ok []) := by
  exact ⟨by decide, rfl⟩

/-- C6 amended: when a branch-match pattern is configured, a PR whose
branch display name does not match it (unanchored search) is skipped
with no request issued — in particular no build-status fetch — and every
PR appearing in the result matches the pattern; when additionally no
build-verification policy is configured, the result is exactly the
matching PRs, in order, with their own head commits.  (With a build
policy, matching PRs may further be dropped by the greenness checks.) -/
theorem branchFilter_correct :
    (∀ (b : BitbucketService) (p : Pattern) (fuel : Nat) (pull : PullRequestInfo),
      b.branchMatch = some p → matchString p pull.fromRef.displayId = false →
      processPull b fuel pull = (some (.ok none), [])) ∧
    (∀ (b : BitbucketService) (p : Pattern) (fuel : Nat) (pull : PullRequestInfo)
      (c : PullRequest),
      b.branchMatch = some p → (processPull b fuel pull).1 = some (.ok (some c)) →
      matchString p pull.fromRef.displayId = true) ∧
    (∀ (b : BitbucketService) (p : Pattern) (fuel : Nat)
      (pulls : List PullRequestInfo),
      b.branchMatch = some p → b.successfulBuilds = none →
      processPulls b fuel pulls =
        (some (.ok ((pulls.filter fun q => matchString p q.fromRef.displayId).map
          fun q => { number := q.id, branch := q.fromRef.displayId,
                     headSHA := q.fromRef.latestCommit })), [])) := by
  have skip : ∀ (b : BitbucketService) (p : Pattern) (fuel : Nat) (pull : PullRequestInfo),
      b.branchMatch = some p → matchString p pull.fromRef.displayId = false →
      processPull b fuel pull = (some (.ok none), []) := by
    intro b p fuel pull hbm hm
    have hbr : branchRejected b pull = true := by simp [branchRejected, hbm, hm]
    simp [processPull, hbr]
  refine ⟨skip, ?_, ?_⟩
  · intro b p fuel pull c hbm h
    by_cases hm : matchString p pull.fromRef.displayId = true
    · exact hm
    · rw [Bool.not_eq_true] at hm
      rw [skip b p fuel pull hbm hm] at h
      simp at h
  · intro b p fuel pulls hbm hnil
    induction pulls with
    | nil => simp [processPulls]
    | cons q rest ih =>
      by_cases hm : matchString p q.fromRef.displayId = true
      · have hbr : branchRejected b q = false := by simp [branchRejected, hbm, hm]
        simp [processPulls, processPull, hbr, hnil, ih, List.filter_cons, hm]
      · rw [Bool.not_eq_true] at hm
        simp [processPulls, skip b p fuel q hbm hm, ih, List.filter_cons, hm]

/-- Witness for C6: the branch "nomatch" is skipped without any request,
and over pulls on branches "feature-10" (matched by the unanchored
search, since its language is exactly "feature-1") and "other" the
result is exactly the matching PR. -/
theorem branchFilter_correct_witness :
    processPull w6Service 1 ⟨1, ⟨"refs/heads/nomatch", "nomatch", "s0"⟩⟩ =
      (some (.ok none), []) ∧
    processPulls w6Service 1
      [⟨2, ⟨"refs/heads/feature-10", "feature-10", "s2"⟩⟩,
       ⟨3, ⟨"refs/heads/other", "other", "s3"⟩⟩] =
      (some (.ok [{ number := 2, branch := "feature-10", headSHA := "s2" }]), []) := by
  constructor
  · exact branchFilter_correct.1 w6Service w6Pattern 1 _ rfl (by decide)
  · have h := branchFilter_correct.2.2 w6Service w6Pattern 1
      [⟨2, ⟨"refs/heads/feature-10", "feature-10", "s2"⟩⟩,
       ⟨3, ⟨"refs/heads/other", "other", "s3"⟩⟩] rfl rfl
    rw [h]
    rfl

/-- C2 counterexample: the branch-tip commit "tip" reappears in the PR's
commit list, and the walk performs a build-status call for it — the full
request trace of `List` contains `buildStatuses "tip"` twice (head check
plus walk) — because the code's skip compares each commit id against
`pull.FromRef.ID`, the ref name "refs/heads/f", which no commit SHA
equals.  This refutes "skips the branch-tip commit itself without a
build-status call for it". -/
theorem walk_skipsTip_counterexample :
    (listPullRequests cx2Service 2).1 =
      some (.ok [{ number := 101, branch := "f", headSHA := "good" }]) ∧
    (listPullRequests cx2Service 2).2.count (Request.buildStatuses "tip") = 2 := by
  exact ⟨rfl, rfl⟩

/-- C2 amended: when the head commit is not green and
`findLatestSuccessful` is true, the PR's commits are fetched and walked
in server order; the walk skips exactly the commits whose id equals the
branch ref id `pull.FromRef.ID` (not the tip commit SHA — a tip commit
listed under its SHA is re-evaluated like any other), performs exactly
one greenness evaluation (one build-status request) per visited commit
up to and including the first green one (`walkChecked`), substitutes the
first green commit's id as the accepted head (`walkFound`), and omits
the PR when no visited commit is green. -/
theorem listWalk_correct :
    (∀ (b : BitbucketService) (sts : String → List BuildStatus),
      singlePageBuilds b.server sts →
      ∀ (fuel : Nat) (refId : String) (commits : List Commit),
      findGreenCommit b (fuel + 1) refId commits =
        (some (.ok ((walkFound (fun c => greenDecision b (sts c.id)) refId commits).map
            Commit.id)),
         (walkChecked (fun c => greenDecision b (sts c.id)) refId commits).map
           fun c => Request.buildStatuses c.id)) ∧
    (∀ (b : BitbucketService) (sts : String → List BuildStatus),
      singlePageBuilds b.server sts →
      ∀ (fuel : Nat) (pull : PullRequestInfo) (commits : List Commit) (n : Int),
      b.successfulBuilds.isSome = true →
      branchRejected b pull = false →
      b.findLatestSuccessful = true →
      greenDecision b (sts pull.fromRef.latestCommit) = false →
      b.server.getPullRequestCommitsWithOptions pull.id { limit := 100, start := none } =
        .ok { values := commits, isLastPage := true, nextPageStart := n } →
      processPull b (fuel + 1) pull =
        (some (.ok ((walkFound (fun c => greenDecision b (sts c.id))
            pull.fromRef.id commits).map
            fun c => { number := pull.id, branch := pull.fromRef.displayId,
                       headSHA := c.id })),
         Request.buildStatuses pull.fromRef.latestCommit ::
           Request.prCommitsPage pull.id { limit := 100, start := none } ::
           (walkChecked (fun c => greenDecision b (sts c.id)) pull.fromRef.id commits).map
             fun c => Request.buildStatuses c.id)) := by
  have key : ∀ (b : BitbucketService) (sts : String → List BuildStatus),
      singlePageBuilds b.server sts →
      ∀ (fuel : Nat) (refId : String) (commits : List Commit),
      findGreenCommit b (fuel + 1) refId commits =
        (some (.ok ((walkFound (fun c => greenDecision b (sts c.id)) refId commits).map
            Commit.id)),
         (walkChecked (fun c => greenDecision b (sts c.id)) refId commits).map
           fun c => Request.buildStatuses c.id) := by
    intro b sts h fuel refId commits
    induction commits with
    | nil => simp [findGreenCommit, walkFound, walkChecked, walkVisited]
    | cons c rest ih =>
      by_cases hc : c.id = refId
      · simp [findGreenCommit, hc, walkFound, walkChecked, walkVisited, ih]
      · have hg := isCommitGreen_singlePage b sts h fuel c.id
        cases hd : greenDecision b (sts c.id) with
        | true =>
          simp [findGreenCommit, hc, hg, hd, walkFound, walkChecked, walkVisited]
        | false =>
          simp [findGreenCommit, hc, hg, hd, walkFound, walkChecked, walkVisited, ih]
  refine ⟨key, ?_⟩
  intro b sts h fuel pull commits n hsb hbr hf hng hcm
  obtain ⟨pats, hp⟩ := Option.isSome_iff_exists.mp hsb
  have hg := isCommitGreen_singlePage b sts h fuel pull.fromRef.latestCommit
  rw [hng] at hg
  have hcommits : getPullRequestCommits b (fuel + 1) pull.id =
      (some (.ok commits), [.prCommitsPage pull.id { limit := 100, start := none }]) := by
    simp [getPullRequestCommits, getPullRequestCommitsLoop, hcm]
  have hwalk := key b sts h fuel pull.fromRef.id commits
  cases hfound : walkFound (fun c => greenDecision b (sts c.id)) pull.fromRef.id commits with
  | none =>
    rw [hfound] at hwalk
    simp [processPull, hbr, hp, hg, hf, hcommits, hwalk, hfound]
  | some c =>
    rw [hfound] at hwalk
    simp [processPull, hbr, hp, hg, hf, hcommits, hwalk, hfound]

/-- Witness for C2: over `w2Service` (single-page build statuses given
by `w2Sts`) the walk on commits ["bad", "good"] checks each once, in
order, and finds "good"; `processPull` substitutes it as the accepted
head, after one head check and one commit-page fetch. -/
theorem listWalk_correct_witness :
    findGreenCommit w2Service 1 "refs/heads/f" [⟨"bad"⟩, ⟨"good"⟩] =
      (some (.ok (some "good")), [.buildStatuses "bad", .buildStatuses "good"]) ∧
    processPull w2Service 1 ⟨101, ⟨"refs/heads/f", "f", "tip"⟩⟩ =
      (some (.ok (some { number := 101, branch := "f", headSHA := "good" })),
       [.buildStatuses "tip", .prCommitsPage 101 { limit := 100, start := none },
        .buildStatuses "bad", .buildStatuses "good"]) := by
  constructor
  · have h := listWalk_correct.1 w2Service w2Sts (fun c => rfl) 0 "refs/heads/f"
      [⟨"bad"⟩, ⟨"good"⟩]
    rw [h]
    rfl
  · have h := listWalk_correct.2 w2Service w2Sts (fun c => rfl) 0
      ⟨101, ⟨"refs/heads/f", "f", "tip"⟩⟩ [⟨"bad"⟩, ⟨"good"⟩] 0 rfl rfl rfl
      (by decide) rfl
    rw [h]
    rfl

/-- C4: `verifyAllBuildsSuccessful(statuses)` returns true iff every
status in the sequence has state SUCCESSFUL; in particular it returns
true for the empty sequence (vacuous success) and false whenever any
status is FAILED or INPROGRESS (any state other than SUCCESSFUL). -/
theorem verifyAllBuildsSuccessful_correct :
    (∀ sts : List BuildStatus,
      (verifyAllBuildsSuccessful sts = true ↔ ∀ s ∈ sts, s.state = SUCCESSFUL)) ∧
    verifyAllBuildsSuccessful [] = true ∧
    (∀ (sts : List BuildStatus) (s : BuildStatus), s ∈ sts →
      s.state ≠ SUCCESSFUL → verifyAllBuildsSuccessful sts = false) := by
  have key : ∀ sts : List BuildStatus,
      verifyAllBuildsSuccessful sts = true ↔ ∀ s ∈ sts, s.state = SUCCESSFUL := by
    intro sts
    rw [verifyAllBuildsSuccessful_eq_all]
    simp [List.all_eq_true]
  refine ⟨key, rfl, ?_⟩
  intro sts s hs hne
  cases h : verifyAllBuildsSuccessful sts with
  | false => rfl
  | true => exact absurd ((key sts).mp h s hs) hne

/-- Witness for C4: the empty sequence is vacuously green, and a
sequence containing a FAILED status (and an INPROGRESS one) is not. -/
theorem verifyAllBuildsSuccessful_correct_witness :
    verifyAllBuildsSuccessful [] = true ∧
    verifyAllBuildsSuccessful
      [{ state := "SUCCESSFUL", name := "a" }, { state := "FAILED", name := "b" },
       { state := "INPROGRESS", name := "c" }] = false := by
  refine ⟨verifyAllBuildsSuccessful_correct.2.1, ?_⟩
  exact verifyAllBuildsSuccessful_correct.2.2 _ { state := "FAILED", name := "b" }
    (by simp) (by decide)

/-- C5: `verifyListedBuildsSuccessful(patterns, statuses)` returns true
iff for every pattern in the list there exists a status whose name
matches that pattern (unanchored search, embedded by `matchString`) and
whose state is SUCCESSFUL; a pattern matched only by non-successful
builds, or by no build at all, makes the result false, and statuses
matching no pattern are ignored. -/
theorem verifyListedBuildsSuccessful_correct (pats : List Pattern)
    (sts : List BuildStatus) :
    verifyListedBuildsSuccessful pats sts = true ↔
      ∀ p ∈ pats, ∃ s ∈ sts, matchString p s.name = true ∧ s.state = SUCCESSFUL :=
  verifyListedBuildsSuccessful_eq_true_iff pats sts

/-- Witness for C5, mirroring the spec's example: a pattern matched by a
successful build passes even with failed and in-progress builds present;
adding a pattern matched only by an in-progress build fails the check. -/
theorem verifyListedBuildsSuccessful_correct_witness :
    verifyListedBuildsSuccessful [fun s => s == "DB1"]
      [{ state := "SUCCESSFUL", name := "DB1" }, { state := "FAILED", name := "e2e" },
       { state := "INPROGRESS", name := "docs" }] = true ∧
    verifyListedBuildsSuccessful [fun s => s == "DB1", fun s => s == "docs"]
      [{ state := "SUCCESSFUL", name := "DB1" }, { state := "FAILED", name := "e2e" },
       { state := "INPROGRESS", name := "docs" }] = false := by
  constructor
  · exact (verifyListedBuildsSuccessful_correct _ _).mpr (by decide)
  · cases h : verifyListedBuildsSuccessful [fun s => s == "DB1", fun s => s == "docs"]
      [{ state := "SUCCESSFUL", name := "DB1" }, { state := "FAILED", name := "e2e" },
       { state := "INPROGRESS", name := "docs" }] with
    | false => rfl
    | true =>
      have h2 := (verifyListedBuildsSuccessful_correct _ _).mp h
        (fun s => s == "docs") (by simp)
      exact absurd h2 (by decide)

/-- C10: `verifyListedBuildsSuccessful` is a pointwise conjunction over
its pattern list: over `p ++ q` it equals the conjunction of the results
over `p` and over `q`; consequently one successful build whose name
matches every pattern makes the check true (patterns need not be
witnessed by distinct builds), and appending patterns never turns a
false result into a true one. -/
theorem verifyListedBuildsSuccessful_append :
    (∀ (p q : List Pattern) (sts : List BuildStatus),
      verifyListedBuildsSuccessful (p ++ q) sts =
        (verifyListedBuildsSuccessful p sts && verifyListedBuildsSuccessful q sts)) ∧
    (∀ (pats : List Pattern) (sts : List BuildStatus) (st : BuildStatus), st ∈ sts →
      st.state = SUCCESSFUL → (∀ p ∈ pats, matchString p st.name = true) →
      verifyListedBuildsSuccessful pats sts = true) ∧
    (∀ (pats q : List Pattern) (sts : List BuildStatus),
      verifyListedBuildsSuccessful pats sts = false →
      verifyListedBuildsSuccessful (pats ++ q) sts = false) := by
  have key : ∀ (p q : List Pattern) (sts : List BuildStatus),
      verifyListedBuildsSuccessful (p ++ q) sts =
        (verifyListedBuildsSuccessful p sts && verifyListedBuildsSuccessful q sts) := by
    intro p q sts
    rw [verifyListedBuildsSuccessful_eq_all, verifyListedBuildsSuccessful_eq_all,
      verifyListedBuildsSuccessful_eq_all, List.all_append]
  refine ⟨key, ?_, ?_⟩
  · intro pats sts st hst hsucc hmatch
    exact (verifyListedBuildsSuccessful_eq_true_iff pats sts).mpr
      fun p hp => ⟨st, hst, hmatch p hp, hsucc⟩
  · intro pats q sts h
    rw [key, h, Bool.false_and]

/-- Witness for C10: one successful build ("both") matching both listed
patterns satisfies the check, the append law holds on concrete lists,
and appending an unmatchable pattern keeps a false result false. -/
theorem verifyListedBuildsSuccessful_append_witness :
    verifyListedBuildsSuccessful
      [fun s => s == "both", fun _ => true]
      [{ state := "SUCCESSFUL", name := "both" }] = true ∧
    verifyListedBuildsSuccessful
      ([fun s => s == "a"] ++ [fun s => s == "b"])
      [{ state := "SUCCESSFUL", name := "a" }] =
      (verifyListedBuildsSuccessful [fun s => s == "a"]
        [{ state := "SUCCESSFUL", name := "a" }] &&
       verifyListedBuildsSuccessful [fun s => s == "b"]
        [{ state := "SUCCESSFUL", name := "a" }]) ∧
    verifyListedBuildsSuccessful
      ([fun s => s == "b"] ++ [fun _ => true])
      [{ state := "SUCCESSFUL", name := "a" }] = false := by
  refine ⟨?_, verifyListedBuildsSuccessful_append.1 _ _ _, ?_⟩
  · exact verifyListedBuildsSuccessful_append.2.1 _ _
      { state := "SUCCESSFUL", name := "both" } (by simp) (by decide) (by decide)
  · exact verifyListedBuildsSuccessful_append.2.2 _ _ _ (by decide)

/-- C7: failures abort `List` immediately.  A failing pull-request page
fetch, a failing build-status fetch for a processed pull, or any error
while processing a page's pulls each yield an error result carrying no
pull-request list, with no further request beyond the failing point (no
retry, no partial accumulation); conversely a successful call in which
every delivered PR is skipped returns the present empty list. -/
theorem list_failFast :
    (∀ (b : BitbucketService) (fuel : Nat) (paged : PagedParams)
      (acc : List PullRequest) (e : Err),
      b.server.getPullRequestsPage paged = .error e →
      listLoop b paged acc (fuel + 1) =
        (some (.error ("error listing pull requests for " ++ b.projectKey ++ "/" ++
          b.repositorySlug ++ ": " ++ e)), [.prPage paged])) ∧
    (∀ (b : BitbucketService) (fuel : Nat) (pull : PullRequestInfo) (e : Err),
      b.successfulBuilds.isSome = true → branchRejected b pull = false →
      b.server.getCommitBuildStatuses pull.fromRef.latestCommit = .error e →
      processPull b (fuel + 1) pull =
        (some (.error ("error listing build statuses for " ++
          pull.fromRef.latestCommit ++ ": " ++ e)),
         [.buildStatuses pull.fromRef.latestCommit])) ∧
    (∀ (b : BitbucketService) (fuel : Nat) (paged : PagedParams)
      (acc : List PullRequest) (page : Page PullRequestInfo) (e : Err)
      (tr : List Request),
      b.server.getPullRequestsPage paged = .ok page →
      processPulls b fuel page.values = (some (.error e), tr) →
      listLoop b paged acc (fuel + 1) = (some (.error e), .prPage paged :: tr)) ∧
    (∀ (b : BitbucketService) (fuel : Nat) (page : Page PullRequestInfo),
      b.server.getPullRequestsPage { limit := 100, start := none } = .ok page →
      page.isLastPage = true →
      (∀ pull ∈ page.values, (processPull b fuel pull).1 = some (.ok none)) →
      (listPullRequests b (fuel + 1)).1 = some (.ok [])) := by
  refine ⟨?_, ?_, ?_, ?_⟩
  · intro b fuel paged acc e he
    simp [listLoop, he]
  · intro b fuel pull e hsb hbr he
    obtain ⟨pats, hp⟩ := Option.isSome_iff_exists.mp hsb
    have hbs : getBuildStatuses b (fuel + 1) pull.fromRef.latestCommit =
        (some (.error ("error listing build statuses for " ++
          pull.fromRef.latestCommit ++ ": " ++ e)),
         [.buildStatuses pull.fromRef.latestCommit]) := by
      simp [getBuildStatuses, getBuildStatusesLoop, he]
    simp [processPull, hbr, hp, isCommitGreen, hbs]
  · intro b fuel paged acc page e tr hp hpp
    simp [listLoop, hp, hpp]
  · intro b fuel page hp hl hall
    have skipAll : ∀ pulls : List PullRequestInfo,
        (∀ pull ∈ pulls, (processPull b fuel pull).1 = some (.ok none)) →
        ∃ tr, processPulls b fuel pulls = (some (.ok []), tr) := by
      intro pulls
      induction pulls with
      | nil => intro _; exact ⟨[], rfl⟩
      | cons q rest ih =>
        intro hq
        obtain ⟨tr2, h2⟩ := ih fun pull hm => hq pull (List.mem_cons_of_mem _ hm)
        rcases hqq : processPull b fuel q with ⟨r, tr1⟩
        have h1 : r = some (.ok none) := by
          have := hq q (List.mem_cons_self _ _)
          rw [hqq] at this
          exact this
        subst h1
        exact ⟨tr1 ++ tr2, by simp [processPulls, hqq, h2]⟩
    obtain ⟨tr, htr⟩ := skipAll page.values hall
    simp [listPullRequests, listLoop, hp, htr, hl]

/-- Witness for C7: a failing pull-request page aborts with one request;
a failing build-status fetch aborts `processPull`; the error propagates
through a page whose fetch succeeded; all-skipped gives the present
empty list. -/
theorem list_failFast_witness :
    listLoop w7ErrService { limit := 100, start := none } [] 1 =
      (some (.error "error listing pull requests for P/R: boom"),
       [.prPage { limit := 100, start := none }]) ∧
    processPull w7ErrService 1 ⟨5, ⟨"refs/heads/x", "x", "tip"⟩⟩ =
      (some (.error "error listing build statuses for tip: bang"),
       [.buildStatuses "tip"]) ∧
    listLoop w7MixService { limit := 100, start := none } [] 2 =
      (some (.error "error listing build statuses for tip: bang"),
       [.prPage { limit := 100, start := none }, .buildStatuses "tip"]) ∧
    (listPullRequests w7SkipService 1).1 = some (.ok []) := by
  refine ⟨?_, ?_, ?_, ?_⟩
  · have h := list_failFast.1 w7ErrService 0 { limit := 100, start := none } [] "boom" rfl
    rw [h]
    rfl
  · have h := list_failFast.2.1 w7ErrService 0 ⟨5, ⟨"refs/heads/x", "x", "tip"⟩⟩ "bang"
      rfl rfl rfl
    rw [h]
    rfl
  · have h := list_failFast.2.2.1 w7MixService 1 { limit := 100, start := none } []
      { values := [⟨5, ⟨"refs/heads/x", "x", "tip"⟩⟩], isLastPage := true, nextPageStart := 0 }
      "error listing build statuses for tip: bang" [.buildStatuses "tip"] rfl rfl
    rw [h]
  · exact list_failFast.2.2.2 w7SkipService 0
      { values := [⟨5, ⟨"refs/heads/x", "x", "tip"⟩⟩], isLastPage := true, nextPageStart := 0 }
      rfl rfl (by intro pull hm; rw [List.mem_singleton] at hm; subst hm; rfl)

/-- C8: the entries of a successful `List` arise one per delivered pull
request, in server order.  A successfully processed page contributes the
in-order `filterMap` of each pull's single contribution (`contribOf`:
none for a skipped PR, one entry otherwise); an accepted entry carries
its pull's id and branch display name, and keeps the pull's own head
commit unless `findLatestSuccessful` is set (the only mode in which a
substituted commit can appear); and the accumulated result of earlier
pages is a prefix of the final result (pages in fetch order, within-page
order preserved, no re-sorting). -/
theorem list_resultShape :
    (∀ (b : BitbucketService) (fuel : Nat) (pulls : List PullRequestInfo)
      (l : List PullRequest) (tr : List Request),
      processPulls b fuel pulls = (some (.ok l), tr) →
      l = pulls.filterMap (contribOf b fuel)) ∧
    (∀ (b : BitbucketService) (fuel : Nat) (pull : PullRequestInfo) (c : PullRequest),
      (processPull b fuel pull).1 = some (.ok (some c)) →
      c.number = pull.id ∧ c.branch = pull.fromRef.displayId ∧
        (c.headSHA = pull.fromRef.latestCommit ∨ b.findLatestSuccessful = true)) ∧
    (∀ (b : BitbucketService) (paged : PagedParams) (acc : List PullRequest)
      (fuel : Nat) (l : List PullRequest) (tr : List Request),
      listLoop b paged acc fuel = (some (.ok l), tr) → acc <+: l) := by
  refine ⟨?_, ?_, ?_⟩
  · intro b fuel pulls
    induction pulls with
    | nil =>
      intro l tr h
      simp [processPulls] at h
      simp [h.1]
    | cons q rest ih =>
      intro l tr h
      rcases hq : processPull b fuel q with ⟨r, tr1⟩
      rcases r with _ | r2
      · simp [processPulls, hq] at h
      · rcases r2 with e | c
        · simp [processPulls, hq] at h
        · rcases hr : processPulls b fuel rest with ⟨r3, tr2⟩
          rcases r3 with _ | r4
          · simp [processPulls, hq, hr] at h
          · rcases r4 with e | prs
            · simp [processPulls, hq, hr] at h
            · simp [processPulls, hq, hr] at h
              have hprs : prs = rest.filterMap (contribOf b fuel) := ih prs tr2 hr
              have hco : contribOf b fuel q = c := by simp [contribOf, hq]
              rw [List.filterMap_cons, hco, ← h.1, hprs]
              cases c <;> simp
  · intro b fuel pull c h
    by_cases hbr : branchRejected b pull = true
    · simp [processPull, hbr] at h
    · rw [Bool.not_eq_true] at hbr
      rcases hsb : b.successfulBuilds with _ | pats
      · simp [processPull, hbr, hsb] at h
        exact ⟨by simp [← h], by simp [← h], Or.inl (by simp [← h])⟩
      · rcases hic : isCommitGreen b fuel pull.fromRef.latestCommit with ⟨ric, tric⟩
        rcases ric with _ | ric2
        · simp [processPull, hbr, hsb, hic] at h
        · rcases ric2 with e | g
          · simp [processPull, hbr, hsb, hic] at h
          · cases g with
            | true =>
              simp [processPull, hbr, hsb, hic] at h
              exact ⟨by simp [← h], by simp [← h], Or.inl (by simp [← h])⟩
            | false =>
              cases hf : b.findLatestSuccessful with
              | false => simp [processPull, hbr, hsb, hic, hf] at h
              | true =>
                rcases hgc : getPullRequestCommits b fuel pull.id with ⟨rg, trg⟩
                rcases rg with _ | rg2
                · simp [processPull, hbr, hsb, hic, hf, hgc] at h
                · rcases rg2 with e | commits
                  · simp [processPull, hbr, hsb, hic, hf, hgc] at h
                  · rcases hfg : findGreenCommit b fuel pull.fromRef.id commits
                        with ⟨rf, trf⟩
                    rcases rf with _ | rf2
                    · simp [processPull, hbr, hsb, hic, hf, hgc, hfg] at h
                    · rcases rf2 with e | copt
                      · simp [processPull, hbr, hsb, hic, hf, hgc, hfg] at h
                      · rcases copt with _ | sha
                        · simp [processPull, hbr, hsb, hic, hf, hgc, hfg] at h
                        · simp [processPull, hbr, hsb, hic, hf, hgc, hfg] at h
                          exact ⟨by simp [← h], by simp [← h], Or.inr rfl⟩
  · intro b paged acc fuel
    induction fuel generalizing paged acc with
    | zero => intro l tr h; simp [listLoop] at h
    | succ m ih =>
      intro l tr h
      cases hp : b.server.getPullRequestsPage paged with
      | error e => simp [listLoop, hp] at h
      | ok page =>
        rcases hpp : processPulls b m page.values with ⟨r, trp⟩
        rcases r with _ | r2
        · simp [listLoop, hp, hpp] at h
        · rcases r2 with e | newPRs
          · simp [listLoop, hp, hpp] at h
          · cases hl : page.isLastPage with
            | true =>
              simp [listLoop, hp, hpp, hl] at h
              exact ⟨newPRs, h.1⟩
            | false =>
              simp [listLoop, hp, hpp, hl] at h
              rcases hnext : listLoop b { paged with start := some page.nextPageStart }
                  (acc ++ newPRs) m with ⟨rn, trn⟩
              rw [hnext] at h
              have hrn : rn = some (.ok l) := h.1
              have hpre := ih { paged with start := some page.nextPageStart }
                (acc ++ newPRs) l trn (by rw [hnext, hrn])
              exact (List.prefix_append acc newPRs).trans hpre

/-- Witness for C8: over `w8Server` the page's two pulls contribute
exactly their two entries in order; the first entry carries its pull's
id, branch and own head commit; a non-empty accumulator is a prefix of
the final result. -/
theorem list_resultShape_witness :
    ([{ number := 1, branch := "b1", headSHA := "s1" },
      { number := 2, branch := "b2", headSHA := "s2" }] : List PullRequest) =
      List.filterMap (contribOf w8Service 0)
        [⟨1, ⟨"refs/heads/b1", "b1", "s1"⟩⟩, ⟨2, ⟨"refs/heads/b2", "b2", "s2"⟩⟩] ∧
    (({ number := 1, branch := "b1", headSHA := "s1" } : PullRequest).number =
        (⟨1, ⟨"refs/heads/b1", "b1", "s1"⟩⟩ : PullRequestInfo).id ∧
      ({ number := 1, branch := "b1", headSHA := "s1" } : PullRequest).branch =
        (⟨1, ⟨"refs/heads/b1", "b1", "s1"⟩⟩ : PullRequestInfo).fromRef.displayId ∧
      (({ number := 1, branch := "b1", headSHA := "s1" } : PullRequest).headSHA =
          (⟨1, ⟨"refs/heads/b1", "b1", "s1"⟩⟩ : PullRequestInfo).fromRef.latestCommit ∨
        w8Service.findLatestSuccessful = true)) ∧
    ([{ number := 9, branch := "z", headSHA := "zz" }] : List PullRequest) <+:
      [{ number := 9, branch := "z", headSHA := "zz" },
       { number := 1, branch := "b1", headSHA := "s1" },
       { number := 2, branch := "b2", headSHA := "s2" }] := by
  refine ⟨?_, ?_, ?_⟩
  · exact list_resultShape.1 w8Service 0
      [⟨1, ⟨"refs/heads/b1", "b1", "s1"⟩⟩, ⟨2, ⟨"refs/heads/b2", "b2", "s2"⟩⟩] _ [] rfl
  · exact list_resultShape.2.1 w8Service 0 ⟨1, ⟨"refs/heads/b1", "b1", "s1"⟩⟩ _ rfl
  · exact list_resultShape.2.2 w8Service { limit := 100, start := none }
      [{ number := 9, branch := "z", headSHA := "zz" }] 1 _
      [.prPage { limit := 100, start := none }] rfl

theorem compileAll_isOk_iff (compile : String → Option Pattern) (l : List String) :
    (compileAll compile l).isOk = true ↔ ∀ s ∈ l, (compile s).isSome = true := by
  induction l with
  | nil => simp [compileAll, Except.isOk, Except.toBool]
  | cons s rest ih =>
    rcases hc : compile s with _ | p
    · simp [compileAll, hc, Except.isOk, Except.toBool]
    · rcases hr : compileAll compile rest with e | ps
      · rw [hr] at ih
        have hcc : compileAll compile (s :: rest) = .error e := by
          simp [compileAll, hc, hr]
        rw [hcc]
        constructor
        · intro h
          simp [Except.isOk, Except.toBool] at h
        · intro hall
          have hok := ih.mpr fun t ht => hall t (List.mem_cons_of_mem _ ht)
          simp [Except.isOk, Except.toBool] at hok
      · rw [hr] at ih
        have hcc : compileAll compile (s :: rest) = .ok (p :: ps) := by
          simp [compileAll, hc, hr]
        rw [hcc]
        constructor
        · intro _ t ht
          rcases List.mem_cons.mp ht with h1 | h2
          · subst h1; simp [hc]
          · exact ih.mp rfl t h2
        · intro _
          rfl

/-- C9: `newBitbucketService` succeeds iff the optional branch pattern
and every supplied build-name pattern compile (the first failure aborts
construction with an error), and the construction's outcome is entirely
independent of the REST collaborator — the server value can be swapped
freely without changing it — so no network interaction is involved and
no List-time regex compilation failure is possible. -/
theorem construction_validatesRegexes :
    (∀ (compile : String → Option Pattern) (srv : Server) (pk rs : String)
      (bm : Option String) (sb : Option (List String)) (f : Bool),
      (newBitbucketService compile srv pk rs bm sb f).isOk = true ↔
        ((∀ s, bm = some s → (compile s).isSome = true) ∧
         (∀ l, sb = some l → ∀ s ∈ l, (compile s).isSome = true))) ∧
    (∀ (compile : String → Option Pattern) (srv srv2 : Server) (pk rs : String)
      (bm : Option String) (sb : Option (List String)) (f : Bool),
      Except.map (fun b => { b with server := srv })
          (newBitbucketService compile srv2 pk rs bm sb f) =
        newBitbucketService compile srv pk rs bm sb f) := by
  constructor
  · intro compile srv pk rs bm sb f
    rcases bm with _ | s
    · rcases sb with _ | l
      · simp [newBitbucketService, Except.isOk, Except.toBool]
      · have hiff := compileAll_isOk_iff compile l
        rcases hr : compileAll compile l with e | ps
        · rw [hr] at hiff
          simp [Except.isOk, Except.toBool] at hiff
          have hne : newBitbucketService compile srv pk rs none (some l) f =
              .error e := by
            simp [newBitbucketService, hr]
          rw [hne]
          constructor
          · intro h
            simp [Except.isOk, Except.toBool] at h
          · intro hall
            obtain ⟨x, hx, hnone⟩ := hiff
            have h2 := hall.2 l rfl x hx
            rw [hnone] at h2
            simp at h2
        · rw [hr] at hiff
          simp [Except.isOk, Except.toBool] at hiff
          have hok : newBitbucketService compile srv pk rs none (some l) f =
              .ok { server := srv, projectKey := pk, repositorySlug := rs,
                    branchMatch := none, successfulBuilds := some ps,
                    findLatestSuccessful := f } := by
            simp [newBitbucketService, hr]
          rw [hok]
          constructor
          · intro _
            refine ⟨fun s hs => Option.noConfusion hs, fun l2 hl2 => ?_⟩
            injection hl2 with h2
            subst h2
            exact hiff
          · intro _
            rfl
    · rcases hc : compile s with _ | p
      · simp [newBitbucketService, hc, Except.isOk, Except.toBool]
      · rcases sb with _ | l
        · simp [newBitbucketService, hc, Except.isOk, Except.toBool]
        · have hiff := compileAll_isOk_iff compile l
          rcases hr : compileAll compile l with e | ps
          · rw [hr] at hiff
            simp [Except.isOk, Except.toBool] at hiff
            have hne : newBitbucketService compile srv pk rs (some s) (some l) f =
                .error e := by
              simp [newBitbucketService, hc, hr]
            rw [hne]
            constructor
            · intro h
              simp [Except.isOk, Except.toBool] at h
            · intro hall
              obtain ⟨x, hx, hnone⟩ := hiff
              have h2 := hall.2 l rfl x hx
              rw [hnone] at h2
              simp at h2
          · rw [hr] at hiff
            simp [Except.isOk, Except.toBool] at hiff
            have hok : newBitbucketService compile srv pk rs (some s) (some l) f =
                .ok { server := srv, projectKey := pk, repositorySlug := rs,
                      branchMatch := some p, successfulBuilds := some ps,
                      findLatestSuccessful := f } := by
              simp [newBitbucketService, hc, hr]
            rw [hok]
            constructor
            · intro _
              refine ⟨fun s2 hs2 => ?_, fun l2 hl2 => ?_⟩
              · injection hs2 with h2
                subst h2
                simp [hc]
              · injection hl2 with h2
                subst h2
                exact hiff
            · intro _
              rfl
  · intro compile srv srv2 pk rs bm sb f
    rcases bm with _ | s
    · rcases sb with _ | l
      · simp [newBitbucketService, Except.map]
      · rcases hr : compileAll compile l with e | ps <;>
          simp [newBitbucketService, hr, Except.map]
    · rcases hc : compile s with _ | p
      · simp [newBitbucketService, hc, Except.map]
      · rcases sb with _ | l
        · simp [newBitbucketService, hc, Except.map]
        · rcases hr : compileAll compile l with e | ps <;>
            simp [newBitbucketService, hc, hr, Except.map]

/-- Witness for C9: with `w9Compile` ("[" is the one invalid regex),
construction succeeds when branch pattern "x" and build patterns
["y", "z"] all compile, fails when the branch pattern is "[", and the
outcome does not depend on the server value. -/
theorem construction_validatesRegexes_witness :
    (newBitbucketService w9Compile w9Server "P" "R" (some "x") (some ["y", "z"])
      false).isOk = true ∧
    (newBitbucketService w9Compile w9Server "P" "R" (some "[") none false).isOk =
      false ∧
    Except.map (fun b => { b with server := w9Server })
        (newBitbucketService w9Compile
          { getPullRequestsPage := fun _ => .error "other"
            getCommitBuildStatuses := fun _ => .error "other"
            getPullRequestCommitsWithOptions := fun _ _ => .error "other" }
          "P" "R" (some "x") (some ["y", "z"]) false) =
      newBitbucketService w9Compile w9Server "P" "R" (some "x") (some ["y", "z"])
        false := by
  refine ⟨?_, ?_, ?_⟩
  · exact (construction_validatesRegexes.1 w9Compile w9Server "P" "R" (some "x")
      (some ["y", "z"]) false).mpr
      ⟨by intro s hs; cases hs; rfl, by intro l hl; cases hl; decide⟩
  · cases hq : (newBitbucketService w9Compile w9Server "P" "R" (some "[") none
        false).isOk with
    | false => rfl
    | true =>
      have h2 := (construction_validatesRegexes.1 w9Compile w9Server "P" "R"
        (some "[") none false).mp hq
      have h3 := h2.1 "[" rfl
      simp [w9Compile] at h3
  · exact construction_validatesRegexes.2 w9Compile w9Server
      { getPullRequestsPage := fun _ => .error "other"
        getCommitBuildStatuses := fun _ => .error "other"
        getPullRequestCommitsWithOptions := fun _ _ => .error "other" }
      "P" "R" (some "x") (some ["y", "z"]) false

end BitbucketServer
